import Mathlib

/-!
Shallow embedding of the netdec decode pipeline core:
the TCP flow tracker (`src/modules/tcp.cc`) and the kernel
event-handler dispatch (`src/kernel.cc`).

Machine integers are modelled as `Nat` with explicit reduction
modulo `2^32` where the C code relies on `uint32_t` wrap-around.
Byte buffers are `List Nat`.
-/

namespace pm

/-- `2^32`, the modulus of `uint32_t` arithmetic. -/
def M32 : Nat := 4294967296

/-- `uint32_t` subtraction `a - b` (wrap-around), as in
`seq - this->base_seq_` in `Stream`. -/
def sub32 (a b : Nat) : Nat := (a + (M32 - b % M32)) % M32

/-- Little-endian bytes of a 16-bit value (host byte order of x86, as
produced by `key->append(&src_port, sizeof(src_port))`). -/
def le16 (n : Nat) : List Nat := [n % 256, n / 256 % 256]

/-- Little-endian bytes of a 32-bit value, as stored by
`Value::cpy(&v, sizeof(v), Value::LITTLE)`. -/
def le32 (n : Nat) : List Nat :=
  [n % 256, n / 256 % 256, n / 65536 % 256, n / 16777216 % 256]

/-- Little-endian bytes of a 64-bit value (`cpy(&ssn_id, 8)`). -/
def le64 (n : Nat) : List Nat :=
  le32 (n % M32) ++ le32 (n / M32)

/-- Big-endian (network order) read of two bytes, as `ntohs`. -/
def be16 (a b : Nat) : Nat := a * 256 + b

/-- Big-endian (network order) read of four bytes, as `ntohl`. -/
def be32 (a b c d : Nat) : Nat := ((a * 256 + b) * 256 + c) * 256 + d

/-- `struct timeval`: seconds and microseconds, both signed. -/
structure Timeval where
  sec : Int
  usec : Int
deriving DecidableEq, Repr

/-- BSD `timersub(a, b, result)`: component-wise subtraction with a
borrow from the seconds field when the microsecond difference is
negative. -/
def timersub (a b : Timeval) : Timeval :=
  let s := a.sec - b.sec
  let u := a.usec - b.usec
  if u < 0 then ⟨s - 1, u + 1000000⟩ else ⟨s, u⟩

/-- The `(uint32_t)((tv_sec * 1000000) + tv_usec)` conversion used for
the `rtt_3wh` attribute: microseconds reduced modulo `2^32`. -/
def usec32 (t : Timeval) : Nat :=
  ((t.sec * 1000000 + t.usec) % (M32 : Int)).toNat

-- TCP flag bits (tcp.cc).
def FIN : Nat := 1
def SYN : Nat := 2
def RST : Nat := 4
def PUSH : Nat := 8
def ACK : Nat := 16
def URG : Nat := 32
def ECE : Nat := 64
def CWR : Nat := 128

/-- `memcmp` over two byte ranges of the same length (the `make_key`
call sites always compare `src_len` bytes with `src_len == dst_len`). -/
def memcmp : List Nat → List Nat → Ordering
  | a :: as, b :: bs =>
    if a < b then .lt else if b < a then .gt else memcmp as bs
  | _, _ => .eq

/-- TCP module parameter slots that the modelled code writes
(`define_param` names in the `TCP` constructor). -/
inductive PParam
  | src_port | dst_port | seq | ack | offset | flags | window
  | chksum | urgptr
  | flag_fin | flag_syn | flag_rst | flag_push | flag_ack
  | flag_urg | flag_ece | flag_cwr
  | optdata | segment | data | rtt_3wh | tx_server | tx_client | ssn_id
deriving DecidableEq, Repr

/-- TCP module events (`define_event` names). -/
inductive PEvent
  | new_session | established | closed
deriving DecidableEq, Repr

/-- Per-packet `Property` state, restricted to the fields the core
reads and writes: the timestamp, the 5-tuple accessors, the ordered
event list (`push_event`) and the attribute values
(`retain_value(param)->set/cpy`, modelled as the byte string written;
a later write to the same param shadows the earlier one). -/
structure PacketProp where
  tv : Timeval
  src_addr : List Nat
  dst_addr : List Nat
  src_port : Nat
  dst_port : Nat
  events : List PEvent
  values : List (PParam × List Nat)
deriving DecidableEq, Repr

/-- `retain_value(param)->set/cpy(bytes)`: record `bytes` as the
current value of `param`. -/
def setValue (p : PacketProp) (k : PParam) (v : List Nat) : PacketProp :=
  { p with values := (k, v) :: p.values }

/-- Read back the current value of a param (the most recent write). -/
def lookupValue (p : PacketProp) (k : PParam) : Option (List Nat) :=
  (p.values.find? (fun kv => kv.1 = k)).map (fun kv => kv.2)

/-- `push_event`: events accumulate in push order. -/
def pushEvent (p : PacketProp) (e : PEvent) : PacketProp :=
  { p with events := p.events ++ [e] }

/-- One direction of a flow: `TCP::Session::Stream`. -/
structure Stream where
  has_base_seq : Bool
  base_seq : Nat
  next_seq : Nat
  ack : Nat
  win_size : Nat
  addr : List Nat
  port : Nat
  tx_size : Nat
deriving DecidableEq, Repr

/-- `Stream::Stream(addr, addr_len, port)`: fresh stream state. -/
def Stream.mk0 (addr : List Nat) (port : Nat) : Stream :=
  { has_base_seq := false, base_seq := 0, next_seq := 0, ack := 0,
    win_size := 0, addr := addr, port := port, tx_size := 0 }

/-- `Stream::set_base_seq(seq, seg_len)`. -/
def Stream.set_base_seq (s : Stream) (seq seg_len : Nat) : Stream :=
  { s with has_base_seq := true, base_seq := seq,
           next_seq := (1 + seg_len) % M32 }

/-- `Stream::inc_seq(step = 1)`. -/
def Stream.inc_seq (s : Stream) : Stream :=
  { s with next_seq := (s.next_seq + 1) % M32 }

/-- `Stream::to_rel_seq(seq)`. -/
def Stream.to_rel_seq (s : Stream) (seq : Nat) : Nat :=
  sub32 seq s.base_seq

/-- `Stream::send(flags, seq, ack, data_len)`: returns the `bool`
result together with the updated stream.  `flags` and `ack` are only
used by (disabled) debug logging in the source.  Note the source never
writes `tx_size_` here. -/
def Stream.send (s : Stream) (flags seq ack : Nat) (data_len : Nat) :
    Bool × Stream :=
  if s.has_base_seq = false then (true, s)
  else
    let rel_seq := sub32 seq s.base_seq
    if s.next_seq = rel_seq then
      (true, { s with next_seq := (s.next_seq + data_len) % M32 })
    else
      (false, s)

/-- `Stream::recv(ack, win_size)`. -/
def Stream.recv (s : Stream) (ack win_size : Nat) : Stream :=
  { s with ack := ack, win_size := win_size }

/-- `Stream::in_window(seq)`: always true in the source (window-scale
handling is a TODO there). -/
def Stream.in_window (_s : Stream) (_seq : Nat) : Bool := true

/-- `Stream::match(addr, addr_len, port)`. -/
def Stream.matches (s : Stream) (addr : List Nat) (port : Nat) : Bool :=
  s.addr = addr && s.port = port

/-- `TCP::Session::Status`. -/
inductive Status
  | NONE | SYN_SENT | SYNACK_SENT | ESTABLISHED | CLOSING | CLOSED
deriving DecidableEq, Repr

/-- Position of a status along the lifecycle path. -/
def statusIdx : Status → Nat
  | .NONE => 0
  | .SYN_SENT => 1
  | .SYNACK_SENT => 2
  | .ESTABLISHED => 3
  | .CLOSING => 4
  | .CLOSED => 5

/-- Successor along the lifecycle path (`CLOSED` is absorbing). -/
def statusSucc : Status → Status
  | .NONE => .SYN_SENT
  | .SYN_SENT => .SYNACK_SENT
  | .SYNACK_SENT => .ESTABLISHED
  | .ESTABLISHED => .CLOSING
  | .CLOSING => .CLOSED
  | .CLOSED => .CLOSED

/-- Which of the session's two streams a `Stream*` refers to
(`sender == this->client_` pointer comparisons). -/
inductive StreamId
  | client | server
deriving DecidableEq, Repr

/-- An out-of-order parked segment.  The source chains segments that
share a relative sequence through `next_`/`tail_`; a chain is modelled
as a `List Segment` with `append` adding at the tail. -/
structure Segment where
  bytes : List Nat
  seq : Nat
  flags : Nat
deriving DecidableEq, Repr

/-- `TCP::Session` state.  `seg_map` models the
`std::map<uint32_t, Segment*>` as an association list with unique
keys; `buf` models the `tb::Buffer* buf_` reassembly buffer
(a plain growable byte buffer, modelled from the spec:
"reasm_buf: optional contiguous buffer receiving in-order payload"). -/
structure Session where
  id : Nat
  client : Stream
  server : Stream
  closing : Option StreamId
  status : Status
  ts_init : Timeval
  ts_estb : Timeval
  ts_rtt : Timeval
  buf : Option (List Nat)
  seg_map : List (Nat × List Segment)
deriving DecidableEq, Repr

/-- Read the stream a `Stream*` points to. -/
def Session.get (ssn : Session) : StreamId → Stream
  | .client => ssn.client
  | .server => ssn.server

/-- Write back through a `Stream*`. -/
def Session.set (ssn : Session) : StreamId → Stream → Session
  | .client, s => { ssn with client := s }
  | .server, s => { ssn with server := s }

/-- `seg_map_.find(key)`. -/
def segFind (m : List (Nat × List Segment)) (key : Nat) :
    Option (List Segment) :=
  (m.find? (fun kv => kv.1 = key)).map (fun kv => kv.2)

/-- `seg_map_.erase(it)` for the entry at `key`. -/
def segErase (m : List (Nat × List Segment)) (key : Nat) :
    List (Nat × List Segment) :=
  m.filter (fun kv => ¬ kv.1 = key)

/-- The parking step of `decode_stream`'s failure branch: insert a
fresh entry when `key` is absent, otherwise append the segment to the
existing chain's tail. -/
def segPark (m : List (Nat × List Segment)) (key : Nat) (seg : Segment) :
    List (Nat × List Segment) :=
  match segFind m key with
  | none => m ++ [(key, [seg])]
  | some _ => m.map (fun kv => if kv.1 = key then (kv.1, kv.2 ++ [seg]) else kv)

/-- `TCP::Session::trans_state(flags, sender, seq, seg_len, tv)`:
returns the source's `new_status` result (the `NONE` sentinel when no
transition fires) together with the updated session. -/
def Session.transState (ssn : Session) (flags : Nat) (sender : StreamId)
    (seq : Nat) (seg_len : Nat) (tv : Timeval) : Status × Session :=
  match ssn.status with
  | .NONE =>
    if flags = SYN ∧ sender = .client then
      (.SYN_SENT,
       { (ssn.set sender ((ssn.get sender).set_base_seq seq seg_len)) with
         status := .SYN_SENT, ts_init := tv })
    else (.NONE, ssn)
  | .SYN_SENT =>
    if flags = (SYN ||| ACK) ∧ sender = .server then
      (.SYNACK_SENT,
       { (ssn.set sender ((ssn.get sender).set_base_seq seq seg_len)) with
         status := .SYNACK_SENT })
    else (.NONE, ssn)
  | .SYNACK_SENT =>
    if flags = ACK ∧ sender = .client then
      (.ESTABLISHED,
       { ssn with status := .ESTABLISHED, ts_estb := tv,
                  ts_rtt := timersub tv ssn.ts_init })
    else (.NONE, ssn)
  | .ESTABLISHED =>
    if flags &&& FIN > 0 then
      (.CLOSING,
       { (ssn.set sender ((ssn.get sender).inc_seq)) with
         status := .CLOSING, closing := some sender })
    else (.NONE, ssn)
  | .CLOSING =>
    if flags &&& FIN > 0 ∧ ¬ ssn.closing = some sender then
      (.CLOSED,
       { (ssn.set sender ((ssn.get sender).inc_seq)) with
         status := .CLOSED })
    else (.NONE, ssn)
  | .CLOSED => (.NONE, ssn)

/-- `TCP::Session::decode_stream`.  The recursion through parked
segment chains is bounded by `fuel` (the source recurses through the
heap-allocated `seg_map_`; every call site below supplies enough fuel
for the segments actually present).  Returns the `bool` result, the
updated `Property` and the updated session. -/
def decodeStream : Nat → PacketProp → Session → Nat → Nat → Nat →
    List Nat → Nat → StreamId → StreamId → Bool × PacketProp × Session
  | 0, p, ssn, _flags, _seq, _ack, _seg, _win, _snd, _rcv => (false, p, ssn)
  | fuel + 1, p, ssn, flags, seq, ack, seg, win, snd, rcv =>
    let st := ssn.get snd
    let sres := st.send flags seq ack seg.length
    if sres.1 = false then
      -- invalid sequence: `in_window` is always true, so the segment
      -- is parked under its relative sequence
      let rel_seq := st.to_rel_seq seq
      (false, p,
       { ssn with seg_map := segPark ssn.seg_map rel_seq ⟨seg, seq, flags⟩ })
    else
      let ssn1 := ssn.set snd sres.2
      let ssn2 := ssn1.set rcv ((ssn1.get rcv).recv ack win)
      let tr := ssn2.transState flags snd seq seg.length p.tv
      let new_state := tr.1
      let ssn3 := tr.2
      let p1 :=
        if new_state = .ESTABLISHED then
          setValue (pushEvent p .established) .rtt_3wh
            (le32 (usec32 ssn3.ts_rtt))
        else p
      let p2 := if new_state = .CLOSED then pushEvent p1 .closed else p1
      let pb :=
        match ssn3.buf with
        | some b => (setValue p2 .data (b ++ seg),
                     { ssn3 with buf := some (b ++ seg) })
        | none => (setValue p2 .data seg, ssn3)
      let p3 := pb.1
      let ssn4 := pb.2
      if ssn4.seg_map.length > 0 then
        match segFind ssn4.seg_map ((ssn4.get snd).next_seq) with
        | some chain =>
          let ssn5 :=
            { ssn4 with buf := some (ssn4.buf.getD seg),
                        seg_map := segErase ssn4.seg_map
                                     ((ssn4.get snd).next_seq) }
          let r := chain.foldl
            (fun (acc : PacketProp × Session) tgt =>
              let rr := decodeStream fuel acc.1 acc.2 tgt.flags tgt.seq
                          ack tgt.bytes win snd rcv
              (rr.2.1, rr.2.2))
            (p3, ssn5)
          (true, r.1, r.2)
        | none => (true, p3, ssn4)
      else (true, p3, ssn4)

/-- Total number of parked segments in the session. -/
def Session.segCount (ssn : Session) : Nat :=
  (ssn.seg_map.map (fun kv => kv.2.length)).sum

/-- `TCP::Session::Session(p, tcp, ssn_id)`: client is the first
packet's source endpoint, server its destination endpoint. -/
def Session.mk0 (p : PacketProp) (ssn_id : Nat) : Session :=
  { id := ssn_id,
    client := Stream.mk0 p.src_addr p.src_port,
    server := Stream.mk0 p.dst_addr p.dst_port,
    closing := none, status := .NONE,
    ts_init := ⟨0, 0⟩, ts_estb := ⟨0, 0⟩, ts_rtt := ⟨0, 0⟩,
    buf := none, seg_map := [] }

/-- `TCP::Session::decode(p, flags, seq, ack, seg_len, seg_ptr, win)`:
clear any stale reassembly buffer, pick sender/receiver by matching
the packet source against the two streams, run `decode_stream`, then
publish the transmitted-byte counters (truncated to `uint32_t`;
`p_tx_server` receives the client stream's counter and vice versa, as
in the source). -/
def Session.decode (ssn : Session) (p : PacketProp)
    (flags seq ack : Nat) (seg : List Nat) (win : Nat) :
    PacketProp × Session :=
  let ssn0 := { ssn with buf := none }
  let sr : StreamId × StreamId :=
    if ssn0.client.matches p.src_addr p.src_port then (.client, .server)
    else (.server, .client)
  let r := decodeStream (ssn0.segCount + 2) p ssn0 flags seq ack seg win
             sr.1 sr.2
  let ssn1 := r.2.2
  let p1 := setValue r.2.1 .tx_server (le32 (ssn1.client.tx_size % M32))
  let p2 := setValue p1 .tx_client (le32 (ssn1.server.tx_size % M32))
  (p2, ssn1)

/-- `TCP::Session::make_key`: canonical direction-independent flow
key.  The endpoint that compares greater (`memcmp` on the address,
ties broken by port) is appended first. -/
def make_key (src_addr : List Nat) (src_port : Nat)
    (dst_addr : List Nat) (dst_port : Nat) : List Nat :=
  let rc := memcmp src_addr dst_addr
  if rc = .gt ∨ (rc = .eq ∧ src_port > dst_port) then
    src_addr ++ le16 src_port ++ dst_addr ++ le16 dst_port
  else
    dst_addr ++ le16 dst_port ++ src_addr ++ le16 src_port

/-- `Payload`: a cursor over the packet bytes. -/
structure Payload where
  data : List Nat
  pos : Nat
deriving DecidableEq, Repr

/-- `Payload::length()`: bytes left. -/
def Payload.remaining (pd : Payload) : Nat := pd.data.length - pd.pos

/-- `Payload::retain(n)`: consume `n` bytes and return them, or `none`
(the null pointer) without advancing when fewer than `n` remain. -/
def Payload.retain (pd : Payload) (n : Nat) : Option (List Nat) × Payload :=
  if n ≤ pd.remaining then
    (some ((pd.data.drop pd.pos).take n), { pd with pos := pd.pos + n })
  else (none, pd)

/-- An entry of the session table: key, residual TTL in seconds,
and the stored session. -/
structure LruEntry where
  key : List Nat
  ttl : Nat
  ssn : Session
deriving DecidableEq, Repr

/-- Modelled from the spec: `tb::LruHash` (external cpp-toolbox
`cache.hpp`, not under src/).  "Hash-indexed table with ... per-entry
TTL in seconds"; `step(delta)` makes "entries whose residual TTL drops
to zero ... expired"; `has_expired`/`pop_expired` drain the expired
queue; `get` returns a null node on miss; `put(ttl, key, value)`
inserts or refreshes. -/
structure LruTable where
  entries : List LruEntry
  expired : List Session
deriving DecidableEq, Repr

/-- Modelled from the spec: `LruHash::step(delta)` — advance the wall
clock, moving entries whose residual TTL is exhausted to the expired
queue. -/
def LruTable.step (t : LruTable) (delta : Nat) : LruTable :=
  { entries := (t.entries.filter (fun e => delta < e.ttl)).map
      (fun e => { e with ttl := e.ttl - delta }),
    expired := t.expired ++
      ((t.entries.filter (fun e => e.ttl ≤ delta)).map (fun e => e.ssn)) }

/-- Modelled from the spec: `LruHash::get(key)` — `none` is the null
node. -/
def LruTable.get (t : LruTable) (key : List Nat) : Option Session :=
  (t.entries.find? (fun e => e.key = key)).map (fun e => e.ssn)

/-- Modelled from the spec: `LruHash::put(ttl, key, value)` — insert
or refresh. -/
def LruTable.put (t : LruTable) (ttl : Nat) (key : List Nat)
    (ssn : Session) : LruTable :=
  { t with entries := (t.entries.filter (fun e => ¬ e.key = key)) ++
      [{ key := key, ttl := ttl, ssn := ssn }] }

/-- The source mutates the stored `Session*` in place; the model
writes the updated session back into its table entry. -/
def LruTable.updateVal (t : LruTable) (key : List Nat) (ssn : Session) :
    LruTable :=
  { t with entries :=
      t.entries.map (fun e => if e.key = key then { e with ssn := ssn } else e) }

/-- Module-level state of the `TCP` decoder: session counter,
synthetic wall clock, its initialization latch, and the session
table. -/
structure TcpState where
  ssn_count : Nat
  curr_ts : Int
  init_ts : Bool
  table : LruTable
deriving DecidableEq, Repr

/-- `Module::NONE` for the returned module id. -/
def modNONE : Option Nat := none

/-- Helper for the flag-boolean attributes: the `byte_t f = ((hdr->flags_
& FNAME) > 0)` value. -/
def flagByte (flags bit : Nat) : List Nat :=
  [if flags &&& bit > 0 then 1 else 0]

/-- `TCP::decode(pd, prop)`: parse the fixed 20-byte header, publish
the header attributes, consume options and segment bytes, advance the
synthetic clock, drain expired sessions, look up or create the flow's
session and run it.  Returns `Module::NONE` (always), the updated
property and the updated module state. -/
def TCP.decode (pd : Payload) (prop : PacketProp) (st : TcpState) :
    Option Nat × PacketProp × TcpState :=
  let r0 := pd.retain 20
  match r0.1 with
  | none => (modNONE, prop, st)     -- not enough packet size
  | some hdr =>
    let pd1 := r0.2
    let b := fun i => hdr.getD i 0
    let prop1 := { prop with src_port := be16 (b 0) (b 1),
                             dst_port := be16 (b 2) (b 3) }
    -- SET_PROP_FROM_HDR: raw network-order header bytes
    let prop2 := setValue prop1 .src_port [b 0, b 1]
    let prop3 := setValue prop2 .dst_port [b 2, b 3]
    let prop4 := setValue prop3 .seq [b 4, b 5, b 6, b 7]
    let prop5 := setValue prop4 .ack [b 8, b 9, b 10, b 11]
    let offset := ((b 12) &&& 0xf0) >>> 2
    let prop6 := setValue prop5 .offset [offset % 256]
    let prop7 := setValue prop6 .offset [b 12]
    let prop8 := setValue prop7 .flags [b 13]
    let prop9 := setValue prop8 .window [b 14, b 15]
    let propA := setValue prop9 .chksum [b 16, b 17]
    let propB := setValue propA .urgptr [b 18, b 19]
    let propC := setValue propB .flag_fin (flagByte (b 13) FIN)
    let propD := setValue propC .flag_syn (flagByte (b 13) SYN)
    let propE := setValue propD .flag_rst (flagByte (b 13) RST)
    let propF := setValue propE .flag_push (flagByte (b 13) PUSH)
    let propG := setValue propF .flag_ack (flagByte (b 13) ACK)
    let propH := setValue propG .flag_urg (flagByte (b 13) URG)
    let propI := setValue propH .flag_ece (flagByte (b 13) ECE)
    let propJ := setValue propI .flag_cwr (flagByte (b 13) CWR)
    -- `size_t optlen = offset - sizeof(tcp_header)` wraps below 20
    let optlen : Nat :=
      if 20 ≤ offset then offset - 20
      else 18446744073709551616 - (20 - offset)
    let ro := if 0 < optlen then pd1.retain optlen else (some [], pd1)
    match ro.1 with
    | none => (modNONE, propJ, st)  -- truncated options
    | some opt =>
      let propK := if 0 < optlen then setValue propJ .optdata opt else propJ
      let pd2 := ro.2
      let seg_len := pd2.remaining
      let rs := if 0 < seg_len then pd2.retain seg_len else (some [], pd2)
      let seg := (rs.1.getD [])
      let propL := if 0 < seg_len then setValue propK .segment seg else propK
      -- synthetic wall clock and expiry
      let ts := propL.tv.sec
      let st1 :=
        if st.curr_ts < ts then
          if st.init_ts then
            { st with curr_ts := ts,
                      table := st.table.step (ts - st.curr_ts).toNat }
          else { st with curr_ts := ts, init_ts := true }
        else st
      let st2 := { st1 with table := { st1.table with expired := [] } }
      let flags := (b 13) &&& (FIN ||| SYN ||| RST ||| ACK)
      let seq := be32 (b 4) (b 5) (b 6) (b 7)
      let ack := be32 (b 8) (b 9) (b 10) (b 11)
      let win := be16 (b 14) (b 15)
      let key := make_key propL.src_addr propL.src_port
                   propL.dst_addr propL.dst_port
      match st2.table.get key with
      | none =>
        let cnt := st2.ssn_count + 1
        let ssn := Session.mk0 propL cnt
        let st3 := { st2 with ssn_count := cnt,
                              table := st2.table.put 300 key ssn }
        let propM := pushEvent propL .new_session
        let propN := setValue propM .ssn_id (le64 ssn.id)
        let dr := ssn.decode propN flags seq ack seg win
        (modNONE, dr.1, { st3 with table := st3.table.updateVal key dr.2 })
      | some ssn =>
        let propN := setValue propL .ssn_id (le64 ssn.id)
        let dr := ssn.decode propN flags seq ack seg win
        (modNONE, dr.1, { st2 with table := st2.table.updateVal key dr.2 })

/-- A queued packet record: captured bytes, captured length and
timestamp (the fields `Kernel::run` reads). -/
structure Packet where
  cap_len : Nat
  bytes : List Nat
  tv : Timeval
deriving DecidableEq, Repr

/-- The kernel's receive counters. -/
structure KernelCounters where
  recv_pkt : Nat
  recv_size : Nat
deriving DecidableEq, Repr

/-- One iteration of the `Kernel::run` loop for a pulled packet: the
counters are bumped first, then the decoder chain and handler dispatch
run (abstracted as `decodeFn` over the worker-local decode state). -/
def Kernel.runStep {σ : Type} (decodeFn : Packet → σ → σ)
    (k : KernelCounters × σ) (pkt : Packet) : KernelCounters × σ :=
  ({ recv_pkt := k.1.recv_pkt + 1,
     recv_size := k.1.recv_size + pkt.cap_len },
   decodeFn pkt k.2)

/-- A registered handler: `Handler::Entry` (id and event id), together
with a model of the callback's observable behaviour towards the
registry — the list of `clear` calls it performs, in order. -/
structure HEntry where
  id : Nat
  ev : Nat
  effect : List Nat
deriving DecidableEq, Repr

/-- Handler-registry state of the kernel: the id → entry map
(`handler_map_`, an association list with unique keys) and the
per-event vectors (`handlers_`, which may hold tombstoned `none`
slots), plus the monotonic id source. -/
structure KHState where
  handler_map : List (Nat × HEntry)
  handlers : List (List (Option HEntry))
  global_hdlr_id : Nat
deriving DecidableEq, Repr

/-- `handler_map_.find(hid)`. -/
def lookupEntry : List (Nat × HEntry) → Nat → Option HEntry
  | [], _ => none
  | (k, e) :: rest, h => if k = h then some e else lookupEntry rest h

/-- `handler_map_.erase(it)` for key `hid` (keys are unique). -/
def eraseEntry (m : List (Nat × HEntry)) (hid : Nat) :
    List (Nat × HEntry) :=
  m.filter (fun kv => ¬ kv.1 = hid)

/-- The tombstoning loop of `Kernel::clear`: null the first non-null
slot whose entry id matches, leave the rest untouched. -/
def tombstoneFirst (hid : Nat) : List (Option HEntry) →
    List (Option HEntry)
  | [] => []
  | some e :: rest =>
    if e.id = hid then none :: rest else some e :: tombstoneFirst hid rest
  | none :: rest => none :: tombstoneFirst hid rest

/-- `Kernel::on(event_name, cb)` after the event name resolved to
`eid`: allocate the next handler id, insert the entry in the id map
and append it to the per-event vector. -/
def Kernel.on (st : KHState) (eid : Nat) (effect : List Nat) :
    Nat × KHState :=
  let hid := st.global_hdlr_id + 1
  let entry : HEntry := { id := hid, ev := eid, effect := effect }
  (hid,
   { handler_map := st.handler_map ++ [(hid, entry)],
     handlers := st.handlers.set eid ((st.handlers.getD eid []) ++ [some entry]),
     global_hdlr_id := hid })

/-- `Kernel::clear(hid)`: false on unknown id; otherwise erase the map
entry and tombstone its slot in the per-event vector. -/
def Kernel.clear (st : KHState) (hid : Nat) : Bool × KHState :=
  match lookupEntry st.handler_map hid with
  | none => (false, st)
  | some entry =>
    let vec := st.handlers.getD entry.ev []
    (true,
     { st with handler_map := eraseEntry st.handler_map hid,
               handlers := st.handlers.set entry.ev
                 (tombstoneFirst entry.id vec) })

/-- The `clear` calls a callback performs while it runs. -/
def runClears (st : KHState) (effs : List Nat) : KHState :=
  effs.foldl (fun s h => (Kernel.clear s h).2) st

/-- The inner dispatch loop of `Kernel::run` for one event: iterate
the slots of the per-event vector by index (the vector's length never
changes during dispatch, `clear` only nulls slots in place), re-read
the live slot each iteration, skip nulls, and invoke the callback of a
non-null slot (recording its handler id in the trace and applying the
callback's `clear` calls to the registry state). -/
def dispatchFrom (eid : Nat) : Nat → Nat → KHState → KHState × List Nat
  | 0, _, st => (st, [])
  | n + 1, i, st =>
    match (st.handlers.getD eid []).get? i with
    | some (some e) =>
      let st1 := runClears st e.effect
      let r := dispatchFrom eid n (i + 1) st1
      (r.1, e.id :: r.2)
    | _ => dispatchFrom eid n (i + 1) st

/-- Dispatch one event: walk all slots of its handler vector. -/
def Kernel.dispatchEvent (st : KHState) (eid : Nat) :
    KHState × List Nat :=
  dispatchFrom eid (st.handlers.getD eid []).length 0 st

/-- Dispatch the events of one packet in push order, accumulating the
invocation trace. -/
def Kernel.dispatchPacket (st : KHState) (evs : List Nat) :
    KHState × List Nat :=
  evs.foldl
    (fun (acc : KHState × List Nat) e =>
      let r := Kernel.dispatchEvent acc.1 e
      (r.1, acc.2 ++ r.2))
    (st, [])

/-! Concrete states used by scenario claims. -/

/-- The bytes of `"hello"`. -/
def bytesHello : List Nat := [104, 101, 108, 108, 111]

/-- The bytes of `"world"`. -/
def bytesWorld : List Nat := [119, 111, 114, 108, 100]

/-- A packet property for a client→server packet of the sample flow. -/
def prop0 : PacketProp :=
  { tv := ⟨0, 0⟩, src_addr := [10, 0, 0, 1], dst_addr := [10, 0, 0, 2],
    src_port := 1234, dst_port := 80, events := [], values := [] }

/-- An ESTABLISHED session of the sample flow with
`client.next_seq = 1`. -/
def snES : Session :=
  { id := 1,
    client := { has_base_seq := true, base_seq := 0, next_seq := 1,
                ack := 0, win_size := 0, addr := [10, 0, 0, 1],
                port := 1234, tx_size := 0 },
    server := { has_base_seq := true, base_seq := 0, next_seq := 1,
                ack := 0, win_size := 0, addr := [10, 0, 0, 2],
                port := 80, tx_size := 0 },
    closing := none, status := .ESTABLISHED,
    ts_init := ⟨0, 0⟩, ts_estb := ⟨0, 0⟩, ts_rtt := ⟨0, 0⟩,
    buf := none, seg_map := [] }

/-- The same session with `client.next_seq = 6` (five payload bytes
already acknowledged). -/
def snES6 : Session :=
  { snES with client := { snES.client with next_seq := 6 } }

/-- The arguments of one `trans_state` call (one decoded packet as the
state machine sees it). -/
structure TransArgs where
  flags : Nat
  sender : StreamId
  seq : Nat
  seg_len : Nat
  tv : Timeval
deriving DecidableEq, Repr

/-- The session after one `trans_state` call. -/
def transStep (ssn : Session) (a : TransArgs) : Session :=
  (ssn.transState a.flags a.sender a.seq a.seg_len a.tv).2

/-- The successive `status` values of a session along a sequence of
`trans_state` calls (the only place the source writes `status_`). -/
def statusTrace (ssn : Session) : List TransArgs → List Status
  | [] => [ssn.status]
  | a :: rest => ssn.status :: statusTrace (transStep ssn a) rest

/-- Invariant relating a `decode_stream` result (property × session)
to the inputs, for a session that is already at or past ESTABLISHED:
events are only appended, the `rtt_3wh` attribute is untouched,
`ts_estb`/`ts_rtt` are untouched, and the status stays at or past
ESTABLISHED. -/
def EstbInv (p0 : PacketProp) (ssn0 : Session)
    (x : PacketProp × Session) : Prop :=
  (∃ tail, x.1.events = p0.events ++ tail) ∧
  lookupValue x.1 .rtt_3wh = lookupValue p0 .rtt_3wh ∧
  x.2.ts_estb = ssn0.ts_estb ∧
  x.2.ts_rtt = ssn0.ts_rtt ∧
  3 ≤ statusIdx x.2.status

/-- A session of the sample flow waiting for the final handshake ACK
(status SYNACK_SENT), with the SYN seen at `ts_init = 0s 5µs`. -/
def snSA : Session :=
  { id := 1,
    client := { has_base_seq := true, base_seq := 0, next_seq := 1,
                ack := 0, win_size := 0, addr := [10, 0, 0, 1],
                port := 1234, tx_size := 0 },
    server := { has_base_seq := true, base_seq := 0, next_seq := 1,
                ack := 0, win_size := 0, addr := [10, 0, 0, 2],
                port := 80, tx_size := 0 },
    closing := none, status := .SYNACK_SENT,
    ts_init := ⟨0, 5⟩, ts_estb := ⟨0, 0⟩, ts_rtt := ⟨0, 0⟩,
    buf := none, seg_map := [] }

/-- The handshake-completing ACK packet property, at `0s 15µs`. -/
def propW : PacketProp :=
  { tv := ⟨0, 15⟩, src_addr := [10, 0, 0, 1], dst_addr := [10, 0, 0, 2],
    src_port := 1234, dst_port := 80, events := [], values := [] }

/-- The handler ids of the non-tombstoned slots of a per-event vector,
in slot order. -/
def vecIds (v : List (Option HEntry)) : List Nat :=
  v.filterMap (fun s => s.map HEntry.id)

/-- The `clear` calls the callback in a slot performs (none for a
tombstone). -/
def slotEffect : Option HEntry → List Nat
  | some e => e.effect
  | none => []

/-- Two pure handlers (performing no `clear` calls) registered for
event 0, in this order. -/
def e8a : HEntry := ⟨1, 0, []⟩

/-- The second pure handler for event 0. -/
def e8b : HEntry := ⟨2, 0, []⟩

/-- A kernel handler state with `e8a` and `e8b` registered for
event 0 in this order. -/
def st8 : KHState := ⟨[(1, e8a), (2, e8b)], [[some e8a, some e8b]], 2⟩

/-- A handler for event 0 whose callback clears handler id 2. -/
def eA1 : HEntry := ⟨1, 0, [2]⟩

/-- A pure handler with id 2 for event 0, registered after `eA1`. -/
def eA2 : HEntry := ⟨2, 0, []⟩

/-- A kernel handler state where handler 1 clears handler 2 from
within its own callback. -/
def stA : KHState := ⟨[(1, eA1), (2, eA2)], [[some eA1, some eA2]], 2⟩

/-! ## Theorems -/

/-- **C1.** `Stream.send` on a stream with `has_base_seq` and
`rel_seq == next_seq` (here `base_seq = 0`, `next_seq = 1`, a packet
at `seq = 1` with `data_len = 5`): the call returns `true` and
advances `next_seq` by exactly `data_len`, but the source never adds
`data_len` to `tx_size` — the counter stays `0` instead of growing to
`5`, contradicting the claim (and the spec's own §4.5 step 3), which
the spec's design notes flag as a bug in the source. -/
theorem C1_send_no_tx_size_update :
    (Stream.send ⟨true, 0, 1, 0, 0, [], 0, 0⟩ ACK 1 0 5).1 = true ∧
    (Stream.send ⟨true, 0, 1, 0, 0, [], 0, 0⟩ ACK 1 0 5).2.next_seq = 1 + 5 ∧
    (Stream.send ⟨true, 0, 1, 0, 0, [], 0, 0⟩ ACK 1 0 5).2.tx_size = 0 ∧
    ¬ (Stream.send ⟨true, 0, 1, 0, 0, [], 0, 0⟩ ACK 1 0 5).2.tx_size =
        (0 : Nat) + 5 := by
  decide

/-- **C4 (counterexample).** The claim's concrete scenario fails on
the code: after ESTABLISHED with `client.next_seq = 1`, delivering
client payload `"world"` at `seq = 11` parks the segment (no `data`
publication), but `"hello"` at `seq = 1` only advances `next_seq` to
`6`, the lookup of key `6` misses the parked key `11`, and the second
packet publishes `data = "hello"`, not `"helloworld"`. -/
theorem C4_counterexample :
    (decodeStream 5 prop0 snES ACK 11 1 bytesWorld 100 .client .server).1 =
      false ∧
    lookupValue
      (decodeStream 5 prop0 snES ACK 11 1 bytesWorld 100 .client .server).2.1
      .data = none ∧
    lookupValue
      (decodeStream 5
        (decodeStream 5 prop0 snES ACK 11 1 bytesWorld 100 .client .server).2.1
        (decodeStream 5 prop0 snES ACK 11 1 bytesWorld 100 .client .server).2.2
        ACK 1 1 bytesHello 100 .client .server).2.1 .data =
      some bytesHello ∧
    ¬ lookupValue
        (decodeStream 5
          (decodeStream 5 prop0 snES ACK 11 1 bytesWorld 100 .client
            .server).2.1
          (decodeStream 5 prop0 snES ACK 11 1 bytesWorld 100 .client
            .server).2.2
          ACK 1 1 bytesHello 100 .client .server).2.1 .data =
        some (bytesHello ++ bytesWorld) := by
  decide

/-- **C4 (amended).** With the parked segment contiguous to the
in-order one (`"world"` at `seq = 6`, since `"hello"` occupies
relative sequences 1–5), the parking and recursive-reassembly path
behaves as claimed: packet 1 is parked under key 6 with no `data`
publication, and packet 2 (`"hello"` at `seq = 1`) publishes
`data = "helloworld"` via the recursive delivery. -/
theorem C4_reassembly :
    (decodeStream 5 prop0 snES ACK 6 1 bytesWorld 100 .client .server).1 =
      false ∧
    lookupValue
      (decodeStream 5 prop0 snES ACK 6 1 bytesWorld 100 .client .server).2.1
      .data = none ∧
    (decodeStream 5 prop0 snES ACK 6 1 bytesWorld 100 .client
      .server).2.2.seg_map = [(6, [⟨bytesWorld, 6, ACK⟩])] ∧
    lookupValue
      (decodeStream 5
        (decodeStream 5 prop0 snES ACK 6 1 bytesWorld 100 .client .server).2.1
        (decodeStream 5 prop0 snES ACK 6 1 bytesWorld 100 .client .server).2.2
        ACK 1 1 bytesHello 100 .client .server).2.1 .data =
      some (bytesHello ++ bytesWorld) := by
  decide

/-- **C5 (counterexample).** Parked keys need not exceed the sender's
`next_seq`: with `client.next_seq = 6`, a (retransmitted) segment at
relative sequence 1 fails `send`, `in_window` is unconditionally true,
and the segment is parked under key `1 < 6`. -/
theorem C5_counterexample :
    (decodeStream 5 prop0 snES6 ACK 1 1 bytesHello 100 .client
      .server).2.2.seg_map = [(1, [⟨bytesHello, 1, ACK⟩])] ∧
    (decodeStream 5 prop0 snES6 ACK 1 1 bytesHello 100 .client
      .server).2.2.client.next_seq = 6 ∧
    ¬ (1 : Nat) > 6 := by
  decide

/-- **C5 (amended).** At every insertion into `seg_map` the inserted
key is the relative sequence `(seq - base_seq) mod 2^32` of the parked
segment and *differs from* (not necessarily exceeds) the sending
stream's `next_seq` at that moment, which is left unchanged; only
non-in-sequence segments are ever parked. -/
theorem C5_park_key (fuel : Nat) (p : PacketProp) (ssn : Session)
    (flags seq ack : Nat) (seg : List Nat) (win : Nat)
    (snd rcv : StreamId)
    (hbase : (ssn.get snd).has_base_seq = true)
    (hrel : ¬ (ssn.get snd).next_seq = sub32 seq (ssn.get snd).base_seq) :
    decodeStream (fuel + 1) p ssn flags seq ack seg win snd rcv =
      (false, p,
       { ssn with seg_map := segPark ssn.seg_map (sub32 seq (ssn.get snd).base_seq) ⟨seg, seq, flags⟩ }) ∧
    ¬ sub32 seq (ssn.get snd).base_seq = (ssn.get snd).next_seq := by
  constructor
  · simp only [decodeStream, Stream.send, hbase, Bool.true_eq_false,
      if_false, hrel, if_true, Stream.to_rel_seq]
  · intro h
    exact hrel h.symm

/-- Witness for C5: the amended statement at the concrete retransmit
scenario of the counterexample. -/
theorem C5_park_key_witness :
    (snES6.get .client).has_base_seq = true ∧
    ¬ sub32 1 (snES6.get .client).base_seq = (snES6.get .client).next_seq :=
  ⟨by decide,
   (C5_park_key 0 prop0 snES6 ACK 1 1 bytesHello 100 .client .server
      (by decide) (by decide)).2⟩

/-- `memcmp` is antisymmetric: swapping the arguments swaps the
ordering. -/
theorem memcmp_swap (a : List Nat) : ∀ b : List Nat,
    memcmp b a = (memcmp a b).swap := by
  induction a with
  | nil => intro b; cases b <;> rfl
  | cons x xs ih =>
    intro b
    cases b with
    | nil => rfl
    | cons y ys =>
      simp only [memcmp]
      rcases Nat.lt_trichotomy x y with h | h | h
      · have h1 : ¬ y < x := Nat.lt_asymm h
        simp [h, h1, Ordering.swap]
      · subst h
        simp [Nat.lt_irrefl, ih ys]
      · have h1 : ¬ x < y := Nat.lt_asymm h
        simp [h, h1, Ordering.swap]

/-- On equal-length byte strings, `memcmp` returning `eq` means the
strings are identical. -/
theorem memcmp_eq_of_eq (a : List Nat) : ∀ b : List Nat,
    a.length = b.length → memcmp a b = .eq → a = b := by
  induction a with
  | nil =>
    intro b hl _
    cases b with
    | nil => rfl
    | cons y ys => simp at hl
  | cons x xs ih =>
    intro b hl h
    cases b with
    | nil => simp at hl
    | cons y ys =>
      simp only [memcmp] at h
      rcases Nat.lt_trichotomy x y with hxy | hxy | hxy
      · rw [if_pos hxy] at h
        exact absurd h (by decide)
      · subst hxy
        rw [if_neg (Nat.lt_irrefl x), if_neg (Nat.lt_irrefl x)] at h
        have := ih ys (by simpa using hl) h
        rw [this]
      · rw [if_neg (Nat.lt_asymm hxy), if_pos hxy] at h
        exact absurd h (by decide)

/-- **C6.** `make_key` is direction-independent: for endpoints with
equal address lengths, the finalized key built from a packet
`(A, pa) → (B, pb)` equals the key built from `(B, pb) → (A, pa)`. -/
theorem C6_make_key_symm (A B : List Nat) (pa pb : Nat)
    (h : A.length = B.length) :
    make_key A pa B pb = make_key B pb A pa := by
  unfold make_key
  have hs := memcmp_swap A B
  rcases hc : memcmp A B with _ | _ | _
  · rw [hc] at hs
    simp [hc, hs, Ordering.swap]
  · rw [hc] at hs
    have hAB : A = B := memcmp_eq_of_eq A B h hc
    subst hAB
    rcases Nat.lt_trichotomy pa pb with hp | hp | hp
    · simp [hc, hs, Nat.lt_asymm hp, hp]
    · subst hp
      simp [hc, hs, Nat.lt_irrefl]
    · simp [hc, hs, Nat.lt_asymm hp, hp]
  · rw [hc] at hs
    simp [hc, hs, Ordering.swap]

/-- Witness for C6 at a concrete pair of endpoints. -/
theorem C6_make_key_symm_witness :
    ([10, 0, 0, 1] : List Nat).length = ([10, 0, 0, 2] : List Nat).length ∧
    make_key [10, 0, 0, 1] 1234 [10, 0, 0, 2] 80 =
      make_key [10, 0, 0, 2] 80 [10, 0, 0, 1] 1234 :=
  ⟨by decide, C6_make_key_symm [10, 0, 0, 1] [10, 0, 0, 2] 1234 80 (by decide)⟩

/-- **C7.** When the fixed 20-byte TCP header cannot be retained, the
module returns `NONE` with the property and the whole module state
(session table, counters, clock) unchanged — no attribute writes, no
session lookup or creation, no events.  Independently, the kernel
counts every pulled packet in `recv_pkt` and adds its captured length
to `recv_size` *before* invoking the decoder chain, so truncated
headers and truncated options are still counted. -/
theorem C7_truncated_header (pd : Payload) (prop : PacketProp)
    (st : TcpState) (h : pd.remaining < 20) :
    TCP.decode pd prop st = (modNONE, prop, st) ∧
    ∀ (dec : Packet → PacketProp × TcpState → PacketProp × TcpState)
      (k : KernelCounters × (PacketProp × TcpState)) (pkt : Packet),
      (Kernel.runStep dec k pkt).1.recv_pkt = k.1.recv_pkt + 1 ∧
      (Kernel.runStep dec k pkt).1.recv_size = k.1.recv_size + pkt.cap_len := by
  constructor
  · have h20 : ¬ 20 ≤ pd.remaining := Nat.not_le.mpr h
    simp only [TCP.decode, Payload.retain, h20, if_false]
  · intro dec k pkt
    exact ⟨rfl, rfl⟩

/-- Witness for C7: a three-byte packet payload. -/
theorem C7_truncated_header_witness :
    (Payload.remaining ⟨[1, 2, 3], 0⟩) < 20 ∧
    TCP.decode ⟨[1, 2, 3], 0⟩ prop0 ⟨0, 0, false, ⟨[], []⟩⟩ =
      (modNONE, prop0, ⟨0, 0, false, ⟨[], []⟩⟩) :=
  ⟨by decide,
   (C7_truncated_header ⟨[1, 2, 3], 0⟩ prop0 ⟨0, 0, false, ⟨[], []⟩⟩
      (by decide)).1⟩

/-- One `trans_state` call leaves `status` unchanged or moves it to
its successor along the lifecycle path. -/
theorem transState_status_step (ssn : Session) (flags : Nat)
    (snd : StreamId) (seq seg_len : Nat) (tv : Timeval) :
    (ssn.transState flags snd seq seg_len tv).2.status = ssn.status ∨
    (ssn.transState flags snd seq seg_len tv).2.status =
      statusSucc ssn.status := by
  cases hstat : ssn.status <;>
    simp only [Session.transState, hstat, statusSucc] <;>
    first
      | (split <;> simp [hstat])
      | simp [hstat]

/-- A closed session is left untouched by `trans_state`. -/
theorem transStep_closed (ssn : Session) (a : TransArgs)
    (h : ssn.status = .CLOSED) : transStep ssn a = ssn := by
  unfold transStep Session.transState
  rw [h]

/-- `statusSucc` never decreases the lifecycle position. -/
theorem statusIdx_le_succ (s : Status) :
    statusIdx s ≤ statusIdx (statusSucc s) := by
  cases s <;> decide

/-- **C3.** Along any sequence of decoded packets, the observed
`status` values start at the session's current status and each step
either repeats the previous status or moves to its immediate successor
on the path `NONE → SYN_SENT → SYNACK_SENT → ESTABLISHED → CLOSING →
CLOSED`; consequently `statusIdx` never decreases (no backward move),
and once `CLOSED` the status never changes.  A fresh session starts at
`NONE`, so its trace is a prefix-walk of that path. -/
theorem C3_status_monotone (ssn : Session) (l : List TransArgs) :
    (statusTrace ssn l).head? = some ssn.status ∧
    List.Chain' (fun a b => b = a ∨ b = statusSucc a) (statusTrace ssn l) ∧
    List.Chain' (fun a b => statusIdx a ≤ statusIdx b)
      (statusTrace ssn l) ∧
    (ssn.status = .CLOSED →
      statusTrace ssn l = List.replicate (l.length + 1) .CLOSED) := by
  have main : ∀ (l : List TransArgs) (ssn : Session),
      (statusTrace ssn l).head? = some ssn.status ∧
      List.Chain' (fun a b => b = a ∨ b = statusSucc a)
        (statusTrace ssn l) := by
    intro l
    induction l with
    | nil => intro ssn; exact ⟨rfl, List.chain'_singleton _⟩
    | cons a rest ih =>
      intro ssn
      have hih := ih (transStep ssn a)
      constructor
      · rfl
      · rw [statusTrace, List.chain'_cons']
        refine ⟨?_, hih.2⟩
        intro b hb
        rw [hih.1] at hb
        have hb' : b = (transStep ssn a).status := by
          simpa using hb.symm
        subst hb'
        exact transState_status_step ssn a.flags a.sender a.seq a.seg_len a.tv
  have closed : ∀ (l : List TransArgs) (ssn : Session),
      ssn.status = .CLOSED →
      statusTrace ssn l = List.replicate (l.length + 1) .CLOSED := by
    intro l
    induction l with
    | nil => intro ssn h; simp [statusTrace, h, List.replicate]
    | cons a rest ih =>
      intro ssn h
      rw [statusTrace, transStep_closed ssn a h, ih ssn h, h]
      rfl
  refine ⟨(main l ssn).1, (main l ssn).2, ?_, closed l ssn⟩
  refine ((main l ssn).2).imp ?_
  intro a b hab
  rcases hab with rfl | rfl
  · exact le_refl _
  · exact statusIdx_le_succ a

@[simp]
theorem Session.set_status (ssn : Session) (i : StreamId) (s : Stream) :
    (ssn.set i s).status = ssn.status := by cases i <;> rfl

@[simp]
theorem Session.set_ts_init (ssn : Session) (i : StreamId) (s : Stream) :
    (ssn.set i s).ts_init = ssn.ts_init := by cases i <;> rfl

@[simp]
theorem Session.set_ts_estb (ssn : Session) (i : StreamId) (s : Stream) :
    (ssn.set i s).ts_estb = ssn.ts_estb := by cases i <;> rfl

@[simp]
theorem Session.set_ts_rtt (ssn : Session) (i : StreamId) (s : Stream) :
    (ssn.set i s).ts_rtt = ssn.ts_rtt := by cases i <;> rfl

@[simp]
theorem Session.set_seg_map (ssn : Session) (i : StreamId) (s : Stream) :
    (ssn.set i s).seg_map = ssn.seg_map := by cases i <;> rfl

@[simp]
theorem Session.set_buf (ssn : Session) (i : StreamId) (s : Stream) :
    (ssn.set i s).buf = ssn.buf := by cases i <;> rfl

@[simp]
theorem Session.set_closing (ssn : Session) (i : StreamId) (s : Stream) :
    (ssn.set i s).closing = ssn.closing := by cases i <;> rfl

@[simp]
theorem lookupValue_pushEvent (p : PacketProp) (e : PEvent) (k : PParam) :
    lookupValue (pushEvent p e) k = lookupValue p k := rfl

@[simp]
theorem events_pushEvent (p : PacketProp) (e : PEvent) :
    (pushEvent p e).events = p.events ++ [e] := rfl

@[simp]
theorem events_setValue (p : PacketProp) (k : PParam) (v : List Nat) :
    (setValue p k v).events = p.events := rfl

@[simp]
theorem lookupValue_setValue_self (p : PacketProp) (k : PParam)
    (v : List Nat) : lookupValue (setValue p k v) k = some v := by
  simp [lookupValue, setValue]

theorem lookupValue_setValue_ne (p : PacketProp) (k' k : PParam)
    (v : List Nat) (h : ¬ k' = k) :
    lookupValue (setValue p k' v) k = lookupValue p k := by
  simp [lookupValue, setValue, List.find?_cons, h]

/-- At or past ESTABLISHED, `trans_state` never reports the
ESTABLISHED transition again, never moves the status back before
ESTABLISHED, and leaves `ts_estb`/`ts_rtt` untouched. -/
theorem transState_post_estb (ssn : Session) (flags : Nat)
    (snd : StreamId) (seq seg_len : Nat) (tv : Timeval)
    (h : 3 ≤ statusIdx ssn.status) :
    ¬ (ssn.transState flags snd seq seg_len tv).1 = .ESTABLISHED ∧
    3 ≤ statusIdx (ssn.transState flags snd seq seg_len tv).2.status ∧
    (ssn.transState flags snd seq seg_len tv).2.ts_estb = ssn.ts_estb ∧
    (ssn.transState flags snd seq seg_len tv).2.ts_rtt = ssn.ts_rtt := by
  cases hstat : ssn.status with
  | NONE => rw [hstat] at h; exact absurd h (by decide)
  | SYN_SENT => rw [hstat] at h; exact absurd h (by decide)
  | SYNACK_SENT => rw [hstat] at h; exact absurd h (by decide)
  | ESTABLISHED =>
    simp only [Session.transState, hstat]
    split
    · refine ⟨by simp, by simp [statusIdx], by simp, by simp⟩
    · refine ⟨by simp, by simp [hstat, statusIdx], by simp, by simp⟩
  | CLOSING =>
    simp only [Session.transState, hstat]
    split
    · refine ⟨by simp, by simp [statusIdx], by simp, by simp⟩
    · refine ⟨by simp, by simp [hstat, statusIdx], by simp, by simp⟩
  | CLOSED =>
    simp only [Session.transState, hstat]
    refine ⟨by simp, by simp [hstat, statusIdx], by simp, by simp⟩

/-- `EstbInv` composes. -/
theorem EstbInv_trans {p0 : PacketProp} {ssn0 : Session}
    {x y : PacketProp × Session} (h1 : EstbInv p0 ssn0 x)
    (h2 : EstbInv x.1 x.2 y) : EstbInv p0 ssn0 y := by
  obtain ⟨⟨t1, he1⟩, hl1, hb1, hr1, _⟩ := h1
  obtain ⟨⟨t2, he2⟩, hl2, hb2, hr2, hs2⟩ := h2
  exact ⟨⟨t1 ++ t2, by rw [he2, he1, List.append_assoc]⟩,
         by rw [hl2, hl1], by rw [hb2, hb1], by rw [hr2, hr1], hs2⟩

/-- `EstbInv` holds reflexively for a session at or past
ESTABLISHED. -/
theorem EstbInv_refl (p : PacketProp) (ssn : Session)
    (h : 3 ≤ statusIdx ssn.status) : EstbInv p ssn (p, ssn) :=
  ⟨⟨[], by simp⟩, rfl, rfl, rfl, h⟩

/-- The chain-delivery fold of `decode_stream` preserves `EstbInv`,
assuming the per-call invariant at the inner fuel level. -/
theorem chain_estb_of (fuel : Nat) (ack win : Nat) (snd rcv : StreamId)
    (hinv : ∀ (p : PacketProp) (ssn : Session) (flags seq ack' : Nat)
      (seg : List Nat) (win' : Nat) (snd' rcv' : StreamId),
      3 ≤ statusIdx ssn.status →
      EstbInv p ssn
        (decodeStream fuel p ssn flags seq ack' seg win' snd' rcv').2) :
    ∀ (chain : List Segment) (pp : PacketProp) (ss : Session),
      3 ≤ statusIdx ss.status →
      EstbInv pp ss
        (chain.foldl
          (fun (acc : PacketProp × Session) tgt =>
            ((decodeStream fuel acc.1 acc.2 tgt.flags tgt.seq ack
                tgt.bytes win snd rcv).2.1,
             (decodeStream fuel acc.1 acc.2 tgt.flags tgt.seq ack
                tgt.bytes win snd rcv).2.2))
          (pp, ss)) := by
  intro chain
  induction chain with
  | nil => intro pp ss h; exact EstbInv_refl pp ss h
  | cons tgt rest ih =>
    intro pp ss h
    have h1 := hinv pp ss tgt.flags tgt.seq ack tgt.bytes win snd rcv h
    have h2 := ih (decodeStream fuel pp ss tgt.flags tgt.seq ack
      tgt.bytes win snd rcv).2.1
      (decodeStream fuel pp ss tgt.flags tgt.seq ack
        tgt.bytes win snd rcv).2.2 h1.2.2.2.2
    exact EstbInv_trans h1 h2

/-- For a session at or past ESTABLISHED, `decode_stream` (at any
fuel) only appends events, never pushes `established`'s `rtt_3wh`
attribute, and preserves `ts_estb`, `ts_rtt` and the at-or-past-
ESTABLISHED status. -/
theorem decodeStream_post_estb : ∀ (fuel : Nat) (p : PacketProp)
    (ssn : Session) (flags seq ack : Nat) (seg : List Nat) (win : Nat)
    (snd rcv : StreamId), 3 ≤ statusIdx ssn.status →
    EstbInv p ssn (decodeStream fuel p ssn flags seq ack seg win snd rcv).2 := by
  intro fuel
  induction fuel with
  | zero =>
    intro p ssn flags seq ack seg win snd rcv h
    exact EstbInv_refl p ssn h
  | succ fuel ih =>
    intro p ssn flags seq ack seg win snd rcv h
    simp only [decodeStream]
    set sres := Stream.send (ssn.get snd) flags seq ack seg.length with hsres
    by_cases hfail : sres.1 = false
    · rw [if_pos hfail]
      exact ⟨⟨[], by simp⟩, rfl, rfl, rfl, h⟩
    · rw [if_neg hfail]
      set ssn1 := ssn.set snd sres.2 with hssn1
      set ssn2 := ssn1.set rcv ((ssn1.get rcv).recv ack win) with hssn2
      have h2 : 3 ≤ statusIdx ssn2.status := by
        rw [hssn2, hssn1]; simpa using h
      have ht := transState_post_estb ssn2 flags snd seq seg.length p.tv h2
      set tr := Session.transState ssn2 flags snd seq seg.length p.tv
        with htr
      rw [if_neg ht.1]
      have hts_estb : tr.2.ts_estb = ssn.ts_estb := by
        rw [ht.2.2.1, hssn2, hssn1]; simp
      have hts_rtt : tr.2.ts_rtt = ssn.ts_rtt := by
        rw [ht.2.2.2, hssn2, hssn1]; simp
      have hp2 : ∃ t0, (if tr.1 = Status.CLOSED then pushEvent p .closed
          else p).events = p.events ++ t0 ∧
          lookupValue (if tr.1 = Status.CLOSED then pushEvent p .closed
            else p) .rtt_3wh = lookupValue p .rtt_3wh := by
        by_cases hcl : tr.1 = Status.CLOSED
        · rw [if_pos hcl]; exact ⟨[.closed], by simp, by simp⟩
        · rw [if_neg hcl]; exact ⟨[], by simp, rfl⟩
      obtain ⟨t0, hav, hlk⟩ := hp2
      set p2 := if tr.1 = Status.CLOSED then pushEvent p .closed else p
        with hp2def
      have main : ∀ (p3 : PacketProp) (ssn4 : Session) (nbuf : List Nat),
          p3.events = p.events ++ t0 →
          lookupValue p3 .rtt_3wh = lookupValue p .rtt_3wh →
          ssn4.ts_estb = ssn.ts_estb → ssn4.ts_rtt = ssn.ts_rtt →
          3 ≤ statusIdx ssn4.status → ssn4.status = tr.2.status →
          EstbInv p ssn
            (if ssn4.seg_map.length > 0 then
              match segFind ssn4.seg_map ((ssn4.get snd).next_seq) with
              | some chain =>
                let ssn5 :=
                  { ssn4 with buf := some nbuf,
                              seg_map := segErase ssn4.seg_map
                                ((ssn4.get snd).next_seq) }
                let r := chain.foldl
                  (fun (acc : PacketProp × Session) tgt =>
                    let rr := decodeStream fuel acc.1 acc.2 tgt.flags
                      tgt.seq ack tgt.bytes win snd rcv
                    (rr.2.1, rr.2.2))
                  (p3, ssn5)
                (true, r.1, r.2)
              | none => (true, p3, ssn4)
            else (true, p3, ssn4)).2 := by
        intro p3 ssn4 nbuf hev hlk3 he4 hr4 hs4 _
        have base : EstbInv p ssn (p3, ssn4) :=
          ⟨⟨t0, hev⟩, hlk3, he4, hr4, hs4⟩
        by_cases hsm : ssn4.seg_map.length > 0
        · rw [if_pos hsm]
          cases hfind : segFind ssn4.seg_map ((ssn4.get snd).next_seq) with
          | none => exact base
          | some chain =>
            simp only []
            exact EstbInv_trans
              (show EstbInv p ssn (p3, { ssn4 with buf := some nbuf, seg_map := segErase ssn4.seg_map ((ssn4.get snd).next_seq) }) from
                ⟨⟨t0, hev⟩, hlk3, he4, hr4, hs4⟩)
              (chain_estb_of fuel ack win snd rcv
                (fun p' ssn' f' s' a' g' w' sd' rc' h' =>
                  ih p' ssn' f' s' a' g' w' sd' rc' h') chain p3
                { ssn4 with buf := some nbuf, seg_map := segErase ssn4.seg_map ((ssn4.get snd).next_seq) }
                hs4)
        · rw [if_neg hsm]
          exact base
      cases hbuf : tr.2.buf with
      | some b =>
        simp only [hbuf, Option.getD_some]
        exact main (setValue p2 .data (b ++ seg))
          { tr.2 with buf := some (b ++ seg) } (b ++ seg)
          (by rw [events_setValue]; exact hav)
          (by rw [lookupValue_setValue_ne _ _ _ _ (by decide)]; exact hlk)
          hts_estb hts_rtt ht.2.1 rfl
      | none =>
        simp only [hbuf, Option.getD_none]
        exact main (setValue p2 .data seg) tr.2 seg
          (by rw [events_setValue]; exact hav)
          (by rw [lookupValue_setValue_ne _ _ _ _ (by decide)]; exact hlk)
          hts_estb hts_rtt ht.2.1 rfl

/-- **C2.** A session in SYNACK_SENT that processes an in-sequence
packet (i.e. the sender-side `send` succeeds) whose masked flags equal
exactly `ACK` and whose sender is the client stream: the state machine
moves to ESTABLISHED (and the call's final status is at or past
ESTABLISHED, exactly ESTABLISHED when nothing was parked), `ts_estb`
becomes the packet timestamp, `ts_rtt = ts_estb - ts_init`, the
`established` event is pushed, and the `rtt_3wh` attribute is the
microsecond value of `ts_rtt` (truncated to 32 bits) stored
little-endian. -/
theorem C2_established (p : PacketProp) (ssn : Session)
    (fuel seq ack : Nat) (seg : List Nat) (win : Nat)
    (hstat : ssn.status = .SYNACK_SENT)
    (hsend : (Stream.send (ssn.get .client) ACK seq ack seg.length).1 =
      true) :
    (∃ tail, (decodeStream (fuel + 1) p ssn ACK seq ack seg win .client
        .server).2.1.events = p.events ++ .established :: tail) ∧
    lookupValue (decodeStream (fuel + 1) p ssn ACK seq ack seg win
        .client .server).2.1 .rtt_3wh =
      some (le32 (usec32 (timersub p.tv ssn.ts_init))) ∧
    (decodeStream (fuel + 1) p ssn ACK seq ack seg win .client
        .server).2.2.ts_estb = p.tv ∧
    (decodeStream (fuel + 1) p ssn ACK seq ack seg win .client
        .server).2.2.ts_rtt = timersub p.tv ssn.ts_init ∧
    3 ≤ statusIdx (decodeStream (fuel + 1) p ssn ACK seq ack seg win
        .client .server).2.2.status ∧
    (ssn.seg_map = [] →
      (decodeStream (fuel + 1) p ssn ACK seq ack seg win .client
        .server).2.2.status = .ESTABLISHED) := by
  simp only [decodeStream]
  set sres := Stream.send (ssn.get StreamId.client) ACK seq ack seg.length
    with hsres
  have hfail : ¬ sres.1 = false := by rw [hsend]; decide
  rw [if_neg hfail]
  set ssn1 := ssn.set StreamId.client sres.2 with hssn1
  set ssn2 := ssn1.set StreamId.server ((ssn1.get StreamId.server).recv
    ack win) with hssn2
  have hst2 : ssn2.status = Status.SYNACK_SENT := by
    rw [hssn2, hssn1]; simp [hstat]
  have hti : ssn2.ts_init = ssn.ts_init := by rw [hssn2, hssn1]; simp
  have hsm2 : ssn2.seg_map = ssn.seg_map := by rw [hssn2, hssn1]; simp
  have hbuf2 : ssn2.buf = ssn.buf := by rw [hssn2, hssn1]; simp
  set ssnE := { ssn2 with status := Status.ESTABLISHED, ts_estb := p.tv, ts_rtt := timersub p.tv ssn2.ts_init } with hssnE
  have htr_eq : Session.transState ssn2 ACK StreamId.client seq
      seg.length p.tv = (Status.ESTABLISHED, ssnE) := by
    simp only [Session.transState, hst2]
    simp [hssnE]
  rw [htr_eq]
  rw [if_pos (show (Status.ESTABLISHED, ssnE).1 = Status.ESTABLISHED from
    rfl)]
  rw [if_neg (show ¬ (Status.ESTABLISHED, ssnE).1 = Status.CLOSED from
    by simp)]
  simp only [show (Status.ESTABLISHED, ssnE).2 = ssnE from rfl]
  have hrttE : ssnE.ts_rtt = timersub p.tv ssn.ts_init := by
    rw [hssnE, ← hti]
  have hbE : ssnE.buf = ssn.buf := by rw [hssnE]; simpa using hbuf2
  have main : ∀ (p3 : PacketProp) (ssn4 : Session) (nbuf : List Nat),
      p3.events = p.events ++ [PEvent.established] →
      lookupValue p3 .rtt_3wh =
        some (le32 (usec32 (timersub p.tv ssn.ts_init))) →
      ssn4.ts_estb = p.tv → ssn4.ts_rtt = timersub p.tv ssn.ts_init →
      ssn4.status = Status.ESTABLISHED → ssn4.seg_map = ssn.seg_map →
      (∃ tail,
        (if ssn4.seg_map.length > 0 then
          match segFind ssn4.seg_map ((ssn4.get StreamId.client).next_seq)
            with
          | some chain =>
            let ssn5 :=
              { ssn4 with buf := some nbuf,
                          seg_map := segErase ssn4.seg_map
                            ((ssn4.get StreamId.client).next_seq) }
            let r := chain.foldl
              (fun (acc : PacketProp × Session) tgt =>
                let rr := decodeStream fuel acc.1 acc.2 tgt.flags tgt.seq
                  ack tgt.bytes win StreamId.client StreamId.server
                (rr.2.1, rr.2.2))
              (p3, ssn5)
            (true, r.1, r.2)
          | none => (true, p3, ssn4)
        else (true, p3, ssn4)).2.1.events =
          p.events ++ .established :: tail) ∧
      lookupValue
        (if ssn4.seg_map.length > 0 then
          match segFind ssn4.seg_map ((ssn4.get StreamId.client).next_seq)
            with
          | some chain =>
            let ssn5 :=
              { ssn4 with buf := some nbuf,
                          seg_map := segErase ssn4.seg_map
                            ((ssn4.get StreamId.client).next_seq) }
            let r := chain.foldl
              (fun (acc : PacketProp × Session) tgt =>
                let rr := decodeStream fuel acc.1 acc.2 tgt.flags tgt.seq
                  ack tgt.bytes win StreamId.client StreamId.server
                (rr.2.1, rr.2.2))
              (p3, ssn5)
            (true, r.1, r.2)
          | none => (true, p3, ssn4)
        else (true, p3, ssn4)).2.1 .rtt_3wh =
        some (le32 (usec32 (timersub p.tv ssn.ts_init))) ∧
      (if ssn4.seg_map.length > 0 then
        match segFind ssn4.seg_map ((ssn4.get StreamId.client).next_seq)
          with
        | some chain =>
          let ssn5 :=
            { ssn4 with buf := some nbuf,
                        seg_map := segErase ssn4.seg_map
                          ((ssn4.get StreamId.client).next_seq) }
          let r := chain.foldl
            (fun (acc : PacketProp × Session) tgt =>
              let rr := decodeStream fuel acc.1 acc.2 tgt.flags tgt.seq
                ack tgt.bytes win StreamId.client StreamId.server
              (rr.2.1, rr.2.2))
            (p3, ssn5)
          (true, r.1, r.2)
        | none => (true, p3, ssn4)
      else (true, p3, ssn4)).2.2.ts_estb = p.tv ∧
      (if ssn4.seg_map.length > 0 then
        match segFind ssn4.seg_map ((ssn4.get StreamId.client).next_seq)
          with
        | some chain =>
          let ssn5 :=
            { ssn4 with buf := some nbuf,
                        seg_map := segErase ssn4.seg_map
                          ((ssn4.get StreamId.client).next_seq) }
          let r := chain.foldl
            (fun (acc : PacketProp × Session) tgt =>
              let rr := decodeStream fuel acc.1 acc.2 tgt.flags tgt.seq
                ack tgt.bytes win StreamId.client StreamId.server
              (rr.2.1, rr.2.2))
            (p3, ssn5)
          (true, r.1, r.2)
        | none => (true, p3, ssn4)
      else (true, p3, ssn4)).2.2.ts_rtt = timersub p.tv ssn.ts_init ∧
      3 ≤ statusIdx
        (if ssn4.seg_map.length > 0 then
          match segFind ssn4.seg_map ((ssn4.get StreamId.client).next_seq)
            with
          | some chain =>
            let ssn5 :=
              { ssn4 with buf := some nbuf,
                          seg_map := segErase ssn4.seg_map
                            ((ssn4.get StreamId.client).next_seq) }
            let r := chain.foldl
              (fun (acc : PacketProp × Session) tgt =>
                let rr := decodeStream fuel acc.1 acc.2 tgt.flags tgt.seq
                  ack tgt.bytes win StreamId.client StreamId.server
                (rr.2.1, rr.2.2))
              (p3, ssn5)
            (true, r.1, r.2)
          | none => (true, p3, ssn4)
        else (true, p3, ssn4)).2.2.status ∧
      (ssn.seg_map = [] →
        (if ssn4.seg_map.length > 0 then
          match segFind ssn4.seg_map ((ssn4.get StreamId.client).next_seq)
            with
          | some chain =>
            let ssn5 :=
              { ssn4 with buf := some nbuf,
                          seg_map := segErase ssn4.seg_map
                            ((ssn4.get StreamId.client).next_seq) }
            let r := chain.foldl
              (fun (acc : PacketProp × Session) tgt =>
                let rr := decodeStream fuel acc.1 acc.2 tgt.flags tgt.seq
                  ack tgt.bytes win StreamId.client StreamId.server
                (rr.2.1, rr.2.2))
              (p3, ssn5)
            (true, r.1, r.2)
          | none => (true, p3, ssn4)
        else (true, p3, ssn4)).2.2.status = .ESTABLISHED) := by
    intro p3 ssn4 nbuf hev hlk he4 hr4 hs4 hmap4
    by_cases hsm : ssn4.seg_map.length > 0
    · rw [if_pos hsm]
      cases hfind : segFind ssn4.seg_map ((ssn4.get StreamId.client).next_seq)
        with
      | none =>
        exact ⟨⟨[], hev⟩, hlk, he4, hr4, by rw [hs4]; decide,
               fun _ => hs4⟩
      | some chain =>
        simp only []
        have hs5 : 3 ≤ statusIdx
            ({ ssn4 with buf := some nbuf, seg_map := segErase ssn4.seg_map ((ssn4.get StreamId.client).next_seq) } : Session).status := by
          simp only [hs4]; decide
        have hfold := chain_estb_of fuel ack win StreamId.client
          StreamId.server
          (fun p' ssn' f' s' a' g' w' sd' rc' h' =>
            decodeStream_post_estb fuel p' ssn' f' s' a' g' w' sd' rc' h')
          chain p3
          { ssn4 with buf := some nbuf, seg_map := segErase ssn4.seg_map ((ssn4.get StreamId.client).next_seq) }
          hs5
        obtain ⟨⟨t2, he2⟩, hl2, hb2, hr2, hs2⟩ := hfold
        refine ⟨⟨t2, ?_⟩, ?_, ?_, ?_, hs2, ?_⟩
        · rw [he2, hev, List.append_assoc, List.singleton_append]
        · rw [hl2, hlk]
        · rw [hb2]; simpa using he4
        · rw [hr2]; simpa using hr4
        · intro h0
          rw [hmap4, h0] at hsm
          simp at hsm
    · rw [if_neg hsm]
      exact ⟨⟨[], hev⟩, hlk, he4, hr4, by rw [hs4]; decide, fun _ => hs4⟩
  rw [hbE]
  cases hb : ssn.buf with
  | some b =>
    simp only [hb]
    exact main
      (setValue (setValue (pushEvent p .established) .rtt_3wh
        (le32 (usec32 ssnE.ts_rtt))) .data (b ++ seg))
      { ssnE with buf := some (b ++ seg) } (b ++ seg)
      (by simp)
      (by rw [lookupValue_setValue_ne _ _ _ _ (by decide),
        lookupValue_setValue_self, hrttE])
      (by rw [hssnE])
      (by simpa using hrttE)
      (by rw [hssnE])
      (by rw [hssnE]; simpa using hsm2)
  | none =>
    simp only [hb]
    exact main
      (setValue (setValue (pushEvent p .established) .rtt_3wh
        (le32 (usec32 ssnE.ts_rtt))) .data seg)
      ssnE (ssn2.buf.getD seg)
      (by simp)
      (by rw [lookupValue_setValue_ne _ _ _ _ (by decide),
        lookupValue_setValue_self, hrttE])
      (by rw [hssnE])
      (by simpa using hrttE)
      (by rw [hssnE])
      (by rw [hssnE]; simpa using hsm2)

/-- Witness for C2: the handshake ACK of the sample flow, 10µs after
the SYN.  The session establishes at the packet timestamp. -/
theorem C2_established_witness :
    snSA.status = .SYNACK_SENT ∧
    (decodeStream 1 propW snSA ACK 1 0 [] 100 .client .server).2.2.ts_estb
      = Timeval.mk 0 15 :=
  ⟨rfl,
   (C2_established propW snSA 0 1 0 [] 100 rfl (by decide)).2.2.1⟩

@[simp]
theorem vecIds_nil : vecIds [] = [] := rfl

@[simp]
theorem vecIds_cons_some (e : HEntry) (rest : List (Option HEntry)) :
    vecIds (some e :: rest) = e.id :: vecIds rest := rfl

@[simp]
theorem vecIds_cons_none (rest : List (Option HEntry)) :
    vecIds (none :: rest) = vecIds rest := rfl

/-- A handler sitting in a slot contributes its id to `vecIds`. -/
theorem mem_vecIds_of_get {v : List (Option HEntry)} {i : Nat}
    {e : HEntry} (h : v.get? i = some (some e)) : e.id ∈ vecIds v := by
  have hm : some e ∈ v := List.get?_mem h
  exact List.mem_filterMap.mpr ⟨some e, hm, rfl⟩

/-- Two handlers at slots `i < j` appear in that order among the
non-null ids. -/
theorem sublist_pair_vecIds {v : List (Option HEntry)} {i j : Nat}
    {e1 e2 : HEntry} (hij : i < j) (hi : v.get? i = some (some e1))
    (hj : v.get? j = some (some e2)) :
    [e1.id, e2.id].Sublist (vecIds v) := by
  induction v generalizing i j with
  | nil => simp [List.get?] at hi
  | cons s rest ih =>
    cases i with
    | zero =>
      have hs : s = some e1 := by simpa using hi
      subst hs
      cases j with
      | zero => exact absurd hij (lt_irrefl 0)
      | succ j' =>
        have hj' : rest.get? j' = some (some e2) := by simpa using hj
        have hmem : e2.id ∈ vecIds rest := mem_vecIds_of_get hj'
        rw [vecIds_cons_some]
        exact List.Sublist.cons₂ e1.id (List.singleton_sublist.mpr hmem)
    | succ i' =>
      cases j with
      | zero => exact absurd hij (by omega)
      | succ j' =>
        have hi' : rest.get? i' = some (some e1) := by simpa using hi
        have hj' : rest.get? j' = some (some e2) := by simpa using hj
        have hsub := ih (by omega) hi' hj'
        cases s with
        | none => rw [vecIds_cons_none]; exact hsub
        | some e => rw [vecIds_cons_some]; exact hsub.cons e.id

/-- Purity of all registered handlers carries over to each per-event
vector obtained through `getD`. -/
theorem pure_vec (st : KHState)
    (hp : ∀ v ∈ st.handlers, ∀ s ∈ v, slotEffect s = []) :
    ∀ eid, ∀ s ∈ st.handlers.getD eid [], slotEffect s = [] := by
  intro eid s hs
  rw [List.getD_eq_getElem?_getD] at hs
  cases hv : st.handlers[eid]? with
  | none => rw [hv] at hs; simp at hs
  | some v =>
    rw [hv] at hs
    have hvm : v ∈ st.handlers :=
      List.get?_mem (by rw [List.get?_eq_getElem?, hv])
    exact hp v hvm s (by simpa using hs)

/-- With pure handlers, the inner dispatch loop leaves the state
untouched and its trace lists the non-null slot ids from `i` on
(up to `n` slots). -/
theorem dispatchFrom_pure (st : KHState) (eid : Nat)
    (hp : ∀ s ∈ st.handlers.getD eid [], slotEffect s = []) :
    ∀ (n i : Nat), dispatchFrom eid n i st =
      (st, vecIds (((st.handlers.getD eid []).drop i).take n)) := by
  intro n
  induction n with
  | zero => intro i; simp [dispatchFrom, vecIds]
  | succ n ihn =>
    intro i
    cases hslot : (st.handlers.getD eid []).get? i with
    | none =>
      have hlen : (st.handlers.getD eid []).length ≤ i :=
        List.get?_eq_none.mp hslot
      have h1 : (st.handlers.getD eid []).drop i = [] :=
        List.drop_eq_nil_of_le hlen
      have h2 : (st.handlers.getD eid []).drop (i + 1) = [] :=
        List.drop_eq_nil_of_le (by omega)
      simp only [dispatchFrom, hslot]
      rw [ihn (i + 1), h1, h2]
      simp
    | some s =>
      have hlt : i < (st.handlers.getD eid []).length := by
        by_contra hc
        rw [List.get?_eq_none.mpr (by omega)] at hslot
        cases hslot
      have hget : (st.handlers.getD eid [])[i] = s := by
        have := List.get?_eq_getElem? (st.handlers.getD eid []) i
        rw [hslot, List.getElem?_eq_getElem hlt] at this
        exact (Option.some_inj.mp this.symm)
      have hdrop : (st.handlers.getD eid []).drop i =
          s :: (st.handlers.getD eid []).drop (i + 1) := by
        rw [List.drop_eq_getElem_cons hlt, hget]
      cases s with
      | none =>
        simp only [dispatchFrom, hslot]
        rw [ihn (i + 1), hdrop]
        simp
      | some e =>
        have he : e.effect = [] :=
          hp (some e) (List.get?_mem hslot)
        simp only [dispatchFrom, hslot, he]
        rw [show runClears st [] = st from rfl, ihn (i + 1), hdrop]
        simp

/-- With pure handlers, one event dispatch invokes exactly the
non-tombstoned handlers of its vector, in slot order, and leaves the
state untouched. -/
theorem dispatchEvent_pure (st : KHState) (eid : Nat)
    (hp : ∀ s ∈ st.handlers.getD eid [], slotEffect s = []) :
    Kernel.dispatchEvent st eid = (st, vecIds (st.handlers.getD eid [])) := by
  unfold Kernel.dispatchEvent
  rw [dispatchFrom_pure st eid hp _ 0]
  rw [List.drop_zero, List.take_length]

/-- With pure handlers, a packet dispatch concatenates the per-event
invocations in event push order. -/
theorem dispatchPacket_pure (st : KHState)
    (hp : ∀ v ∈ st.handlers, ∀ s ∈ v, slotEffect s = []) (evs : List Nat) :
    Kernel.dispatchPacket st evs =
      (st, evs.flatMap (fun e => vecIds (st.handlers.getD e []))) := by
  suffices haux : ∀ (evs : List Nat) (acc : List Nat),
      evs.foldl (fun (a : KHState × List Nat) e =>
        let r := Kernel.dispatchEvent a.1 e
        (r.1, a.2 ++ r.2)) (st, acc) =
      (st, acc ++ evs.flatMap (fun e => vecIds (st.handlers.getD e []))) by
    have h := haux evs []
    simpa [Kernel.dispatchPacket] using h
  intro evs
  induction evs with
  | nil => intro acc; simp
  | cons e rest ih =>
    intro acc
    rw [List.foldl_cons]
    have hstep := dispatchEvent_pure st e (pure_vec st hp e)
    simp only [hstep]
    rw [ih (acc ++ vecIds (st.handlers.getD e []))]
    simp [List.flatMap_cons, List.append_assoc]

/-- **C8.** During kernel dispatch of one packet (with handlers whose
callbacks perform no registry mutation), events fire in the order they
were pushed into the property, each firing invokes exactly the
non-tombstoned handlers of that event's vector in registration
(slot) order, and in particular two handlers `e1`, `e2` registered in
that order for the same event are always invoked with `e1` before
`e2`. -/
theorem C8_dispatch_order (st : KHState) (evs : List Nat)
    (eid i j : Nat) (e1 e2 : HEntry)
    (hpure : ∀ v ∈ st.handlers, ∀ s ∈ v, slotEffect s = [])
    (hij : i < j)
    (hi : (st.handlers.getD eid []).get? i = some (some e1))
    (hj : (st.handlers.getD eid []).get? j = some (some e2)) :
    (Kernel.dispatchPacket st evs).2 =
      evs.flatMap (fun e => vecIds (st.handlers.getD e [])) ∧
    (Kernel.dispatchEvent st eid).2 = vecIds (st.handlers.getD eid []) ∧
    [e1.id, e2.id].Sublist (Kernel.dispatchEvent st eid).2 := by
  refine ⟨by rw [dispatchPacket_pure st hpure evs], ?_, ?_⟩
  · rw [dispatchEvent_pure st eid (pure_vec st hpure eid)]
  · rw [dispatchEvent_pure st eid (pure_vec st hpure eid)]
    exact sublist_pair_vecIds hij hi hj

/-- Witness for C8: the two-handler state, firing event 0 once. -/
theorem C8_dispatch_order_witness :
    [e8a.id, e8b.id].Sublist (Kernel.dispatchEvent st8 0).2 :=
  (C8_dispatch_order st8 [0] 0 0 1 e8a e8b (by decide) (by decide)
    (by decide) (by decide)).2.2

/-- Tombstoning only removes ids, never adds any. -/
theorem mem_vecIds_tombstoneFirst {h' x : Nat} :
    ∀ {v : List (Option HEntry)}, x ∈ vecIds (tombstoneFirst h' v) →
    x ∈ vecIds v := by
  intro v
  induction v with
  | nil => intro hx; simp [tombstoneFirst] at hx
  | cons s rest ih =>
    intro hx
    cases s with
    | none =>
      rw [tombstoneFirst, vecIds_cons_none] at hx
      rw [vecIds_cons_none]
      exact ih hx
    | some e =>
      by_cases he : e.id = h'
      · rw [tombstoneFirst, if_pos he, vecIds_cons_none] at hx
        rw [vecIds_cons_some]
        exact List.mem_cons_of_mem _ hx
      · rw [tombstoneFirst, if_neg he, vecIds_cons_some] at hx
        rw [vecIds_cons_some]
        rcases List.mem_cons.mp hx with h1 | h2
        · exact h1 ▸ List.mem_cons_self _ _
        · exact List.mem_cons_of_mem _ (ih h2)

/-- If an id occurs at most once among the non-null slots, tombstoning
it removes it completely. -/
theorem tombstoneFirst_not_mem {h' : Nat} :
    ∀ {v : List (Option HEntry)}, (vecIds v).count h' ≤ 1 →
    ¬ h' ∈ vecIds (tombstoneFirst h' v) := by
  intro v
  induction v with
  | nil => intro _; simp [tombstoneFirst]
  | cons s rest ih =>
    intro hcnt
    cases s with
    | none =>
      rw [tombstoneFirst, vecIds_cons_none]
      exact ih (by rwa [vecIds_cons_none] at hcnt)
    | some e =>
      by_cases he : e.id = h'
      · rw [tombstoneFirst, if_pos he, vecIds_cons_none]
        rw [vecIds_cons_some, List.count_cons] at hcnt
        have : (vecIds rest).count h' = 0 := by
          by_cases hb : e.id = h' <;> simp [hb] at hcnt <;> omega
        exact fun hc => absurd this (by
          rw [List.count_eq_zero]
          intro hcc
          exact hcc hc)
      · rw [tombstoneFirst, if_neg he, vecIds_cons_some]
        intro hc
        rcases List.mem_cons.mp hc with h1 | h2
        · exact he h1.symm
        · refine ih ?_ h2
          rw [vecIds_cons_some, List.count_cons] at hcnt
          by_cases hb : e.id = h' <;> simp [hb] at hcnt <;> omega

/-- `getD` after `set` at a different index is unchanged. -/
theorem getD_set_ne {α : Type} (l : List α) (i j : Nat) (a d : α)
    (h : ¬ i = j) : (l.set i a).getD j d = l.getD j d := by
  rw [List.getD_eq_getElem?_getD, List.getD_eq_getElem?_getD,
    List.getElem?_set_ne h]

/-- `getD` after an in-range `set` at the same index reads the new
value. -/
theorem getD_set_self {α : Type} (l : List α) (i : Nat) (a d : α)
    (h : i < l.length) : (l.set i a).getD i d = a := by
  rw [List.getD_eq_getElem?_getD, List.getElem?_set_eq_of_lt a h]
  rfl

/-- `getD` after `set`: the result is the old value or (at the set
index) the new one. -/
theorem getD_set_cases {α : Type} (l : List α) (i j : Nat) (a d : α) :
    (l.set i a).getD j d = l.getD j d ∨
    (j = i ∧ (l.set i a).getD j d = a) := by
  by_cases hij : i = j
  · subst hij
    by_cases hlt : i < l.length
    · exact Or.inr ⟨rfl, getD_set_self l i a d hlt⟩
    · left
      rw [List.set_eq_of_length_le (by omega)]
  · exact Or.inl (getD_set_ne l i j a d hij)

/-- `Kernel.clear` never adds an id to any per-event vector. -/
theorem vecIds_clear_subset (st : KHState) (h' eid : Nat) {x : Nat}
    (hx : x ∈ vecIds ((Kernel.clear st h').2.handlers.getD eid [])) :
    x ∈ vecIds (st.handlers.getD eid []) := by
  unfold Kernel.clear at hx
  cases hl : lookupEntry st.handler_map h' with
  | none => rw [hl] at hx; exact hx
  | some entry =>
    rw [hl] at hx
    simp only at hx
    rcases getD_set_cases st.handlers entry.ev eid
      (tombstoneFirst entry.id (st.handlers.getD entry.ev [])) []
      with hc | ⟨hje, hc⟩
    · rw [hc] at hx; exact hx
    · rw [hc] at hx
      subst hje
      exact mem_vecIds_tombstoneFirst hx

/-- `runClears` never adds an id to any per-event vector. -/
theorem vecIds_runClears_subset :
    ∀ (effs : List Nat) (st : KHState) (eid : Nat) {x : Nat},
    x ∈ vecIds ((runClears st effs).handlers.getD eid []) →
    x ∈ vecIds (st.handlers.getD eid []) := by
  intro effs
  induction effs with
  | nil => intro st eid x hx; exact hx
  | cons f rest ih =>
    intro st eid x hx
    have h1 : runClears st (f :: rest) =
        runClears (Kernel.clear st f).2 rest := rfl
    rw [h1] at hx
    exact vecIds_clear_subset st f eid (ih (Kernel.clear st f).2 eid hx)

/-- An id absent from every per-event vector is never invoked by the
dispatch loop, and stays absent. -/
theorem dispatchFrom_absent (eid h : Nat) :
    ∀ (n i : Nat) (st : KHState),
    (∀ e', ¬ h ∈ vecIds (st.handlers.getD e' [])) →
    ¬ h ∈ (dispatchFrom eid n i st).2 ∧
    (∀ e', ¬ h ∈ vecIds ((dispatchFrom eid n i st).1.handlers.getD e' [])) := by
  intro n
  induction n with
  | zero => intro i st habs; exact ⟨by simp [dispatchFrom], habs⟩
  | succ n ihn =>
    intro i st habs
    cases hslot : (st.handlers.getD eid []).get? i with
    | none =>
      simp only [dispatchFrom, hslot]
      exact ihn (i + 1) st habs
    | some s =>
      cases s with
      | none =>
        simp only [dispatchFrom, hslot]
        exact ihn (i + 1) st habs
      | some e =>
        have hne : ¬ e.id = h :=
          fun hc => habs eid (hc ▸ mem_vecIds_of_get hslot)
        have habs1 : ∀ e',
            ¬ h ∈ vecIds ((runClears st e.effect).handlers.getD e' []) :=
          fun e' hx => habs e' (vecIds_runClears_subset e.effect st e' hx)
        have hrec := ihn (i + 1) (runClears st e.effect) habs1
        simp only [dispatchFrom, hslot]
        refine ⟨?_, hrec.2⟩
        intro hc
        rcases List.mem_cons.mp hc with h1 | h2
        · exact hne h1.symm
        · exact hrec.1 h2

/-- An id absent from a specific event's vector is never invoked by
that event's dispatch loop (clears by other callbacks only shrink the
vector). -/
theorem dispatchFrom_absent_local (eid h : Nat) :
    ∀ (n i : Nat) (st : KHState),
    ¬ h ∈ vecIds (st.handlers.getD eid []) →
    ¬ h ∈ (dispatchFrom eid n i st).2 := by
  intro n
  induction n with
  | zero => intro i st _; simp [dispatchFrom]
  | succ n ihn =>
    intro i st habs
    cases hslot : (st.handlers.getD eid []).get? i with
    | none =>
      simp only [dispatchFrom, hslot]
      exact ihn (i + 1) st habs
    | some s =>
      cases s with
      | none =>
        simp only [dispatchFrom, hslot]
        exact ihn (i + 1) st habs
      | some e =>
        have hne : ¬ e.id = h :=
          fun hc => habs (hc ▸ mem_vecIds_of_get hslot)
        have habs1 :
            ¬ h ∈ vecIds ((runClears st e.effect).handlers.getD eid []) :=
          fun hx => habs (vecIds_runClears_subset e.effect st eid hx)
        have hrec := ihn (i + 1) (runClears st e.effect) habs1
        simp only [dispatchFrom, hslot]
        intro hc
        rcases List.mem_cons.mp hc with h1 | h2
        · exact hne h1.symm
        · exact hrec h2

/-- An id absent from every per-event vector is never invoked during
a whole packet dispatch. -/
theorem dispatchPacket_absent (h : Nat) :
    ∀ (evs : List Nat) (st : KHState) (acc : List Nat),
    (∀ e', ¬ h ∈ vecIds (st.handlers.getD e' [])) → ¬ h ∈ acc →
    ¬ h ∈ (evs.foldl (fun (a : KHState × List Nat) e =>
      let r := Kernel.dispatchEvent a.1 e
      (r.1, a.2 ++ r.2)) (st, acc)).2 := by
  intro evs
  induction evs with
  | nil => intro st acc _ hacc; simpa using hacc
  | cons e rest ih =>
    intro st acc habs hacc
    rw [List.foldl_cons]
    have hd := dispatchFrom_absent e h
      ((st.handlers.getD e []).length) 0 st habs
    exact ih (Kernel.dispatchEvent st e).1
      (acc ++ (Kernel.dispatchEvent st e).2) hd.2
      (fun hc => (List.mem_append.mp hc).elim hacc hd.1)

/-- `lookupEntry` misses after `eraseEntry` on the same key. -/
theorem lookupEntry_erase (m : List (Nat × HEntry)) (h : Nat) :
    lookupEntry (eraseEntry m h) h = none := by
  induction m with
  | nil => rfl
  | cons kv rest ih =>
    by_cases hk : kv.1 = h
    · simpa [eraseEntry, List.filter_cons, hk] using ih
    · simpa [eraseEntry, List.filter_cons, hk, lookupEntry] using ih

/-- **C9.** `Kernel.clear(hid)` returns false and changes nothing when
`hid` is not registered; when the id is registered (its map entry
carrying its id, its event id's vector being in range, and `hid`
occurring at most once in that vector and nowhere else), `clear`
returns true, erases the id from the map, tombstones its slot, and no
subsequent dispatch of any event sequence ever invokes that callback
again. -/
theorem C9_clear (st : KHState) (hid : Nat) :
    (lookupEntry st.handler_map hid = none →
      Kernel.clear st hid = (false, st)) ∧
    (∀ ent, lookupEntry st.handler_map hid = some ent → ent.id = hid →
      ent.ev < st.handlers.length →
      (vecIds (st.handlers.getD ent.ev [])).count hid ≤ 1 →
      (∀ eid, ¬ eid = ent.ev →
        ¬ hid ∈ vecIds (st.handlers.getD eid [])) →
      (Kernel.clear st hid).1 = true ∧
      lookupEntry (Kernel.clear st hid).2.handler_map hid = none ∧
      ∀ evs, ¬ hid ∈ (Kernel.dispatchPacket (Kernel.clear st hid).2 evs).2) := by
  constructor
  · intro h
    simp [Kernel.clear, h]
  · intro ent hent hentid hevlt hcnt habs
    have hclear : Kernel.clear st hid =
        (true, { st with handler_map := eraseEntry st.handler_map hid, handlers := st.handlers.set ent.ev (tombstoneFirst ent.id (st.handlers.getD ent.ev [])) }) := by
      simp [Kernel.clear, hent]
    refine ⟨by rw [hclear], ?_, ?_⟩
    · rw [hclear]
      exact lookupEntry_erase st.handler_map hid
    · intro evs
      rw [hclear]
      have habs' : ∀ e', ¬ hid ∈ vecIds
          (({ st with handler_map := eraseEntry st.handler_map hid, handlers := st.handlers.set ent.ev (tombstoneFirst ent.id (st.handlers.getD ent.ev [])) } : KHState).handlers.getD e' []) := by
        intro e' hx
        simp only at hx
        by_cases he' : e' = ent.ev
        · subst he'
          rw [getD_set_self _ _ _ _ hevlt] at hx
          rw [hentid] at hx
          exact tombstoneFirst_not_mem hcnt hx
        · rw [getD_set_ne _ _ _ _ _ (fun hc => he' hc.symm)] at hx
          exact habs e' he' hx
      exact dispatchPacket_absent hid evs _ [] habs' (by simp)

/-- Witness for C9: clearing handler 2 in the two-handler state, then
firing event 0. -/
theorem C9_clear_witness :
    (Kernel.clear st8 2).1 = true ∧
    lookupEntry (Kernel.clear st8 2).2.handler_map 2 = none ∧
    ¬ 2 ∈ (Kernel.dispatchPacket (Kernel.clear st8 2).2 [0]).2 := by
  have h := (C9_clear st8 2).2 e8b (by decide) (by decide) (by decide)
    (by decide)
    (by
      intro eid hne hmem
      cases eid with
      | zero => exact hne rfl
      | succ n => simp [st8, vecIds] at hmem)
  exact ⟨h.1, h.2.1, h.2.2 [0]⟩

/-- The dispatch loop can start past an all-tombstone prefix. -/
theorem dispatchFrom_skip (eid : Nat) :
    ∀ (d i n : Nat) (st : KHState),
    (∀ k, i ≤ k → k < i + d →
      (st.handlers.getD eid []).get? k = some none) →
    dispatchFrom eid (d + n) i st = dispatchFrom eid n (i + d) st := by
  intro d
  induction d with
  | zero => intro i n st _; simp
  | succ d ihd =>
    intro i n st hk
    have hi : (st.handlers.getD eid []).get? i = some none :=
      hk i (le_refl i) (by omega)
    have harith : d + 1 + n = (d + n) + 1 := by omega
    rw [harith]
    simp only [dispatchFrom, hi]
    rw [ihd (i + 1) n st (fun k hk1 hk2 => hk k (by omega) (by omega))]
    rw [Nat.add_assoc, Nat.add_comm 1 d]

/-- **C10.** The kernel implements tombstone semantics, not snapshot
semantics: when handler `e1` (at slot `i`, with only tombstones before
it) clears handler `e2` (at a later slot `j` of the same event's
vector, registered in the map under its id, occurring only once), the
same in-flight dispatch invokes `e1` but never reaches `e2`, because
the loop re-reads the live slot that `clear` nulled. -/
theorem C10_tombstone_semantics (st : KHState) (eid i j : Nat)
    (e1 e2 : HEntry)
    (hk : ∀ k, k < i → (st.handlers.getD eid []).get? k = some none)
    (hi : (st.handlers.getD eid []).get? i = some (some e1))
    (hj : (st.handlers.getD eid []).get? j = some (some e2))
    (hij : i < j)
    (heff : e1.effect = [e2.id])
    (hmap : lookupEntry st.handler_map e2.id = some e2)
    (hev2 : e2.ev = eid)
    (hevlt : eid < st.handlers.length)
    (hcnt : (vecIds (st.handlers.getD eid [])).count e2.id ≤ 1)
    (hne : ¬ e1.id = e2.id) :
    e1.id ∈ (Kernel.dispatchEvent st eid).2 ∧
    ¬ e2.id ∈ (Kernel.dispatchEvent st eid).2 := by
  have hjlt : j < (st.handlers.getD eid []).length := by
    by_contra hc
    rw [List.get?_eq_none.mpr (by omega)] at hj
    cases hj
  unfold Kernel.dispatchEvent
  have hsplit : (st.handlers.getD eid []).length =
      i + (((st.handlers.getD eid []).length - i - 1) + 1) := by omega
  rw [hsplit]
  rw [dispatchFrom_skip eid i 0
    (((st.handlers.getD eid []).length - i - 1) + 1) st
    (fun k _ hk2 => hk k (by omega))]
  rw [Nat.zero_add]
  simp only [dispatchFrom, hi, heff]
  have habs : ¬ e2.id ∈ vecIds
      (((Kernel.clear st e2.id).2).handlers.getD eid []) := by
    have hclear : (Kernel.clear st e2.id).2 =
        { st with handler_map := eraseEntry st.handler_map e2.id, handlers := st.handlers.set eid (tombstoneFirst e2.id (st.handlers.getD eid [])) } := by
      simp [Kernel.clear, hmap, hev2]
    rw [hclear]
    intro hx
    simp only at hx
    rw [getD_set_self _ _ _ _ hevlt] at hx
    exact tombstoneFirst_not_mem hcnt hx
  constructor
  · exact List.mem_cons_self _ _
  · intro hc
    rcases List.mem_cons.mp hc with h1 | h2
    · exact hne h1.symm
    · exact dispatchFrom_absent_local eid e2.id
        ((st.handlers.getD eid []).length - i - 1) (i + 1)
        (runClears st [e2.id]) habs h2

/-- Witness for C10: handler 1 clears handler 2 during the firing of
event 0; handler 1 runs, handler 2 is skipped in the same dispatch. -/
theorem C10_tombstone_semantics_witness :
    eA1.id ∈ (Kernel.dispatchEvent stA 0).2 ∧
    ¬ eA2.id ∈ (Kernel.dispatchEvent stA 0).2 :=
  C10_tombstone_semantics stA 0 0 1 eA1 eA2
    (fun k hk => absurd hk (Nat.not_lt_zero k))
    (by decide) (by decide) (by decide) (by decide) (by decide)
    (by decide) (by decide) (by decide) (by decide)

end pm
